import Mathlib

/-!
Verification of the `fastcrud` CRUD dispatcher (`src/fastcrud/core.py`)
against its natural-language specification.

The Python code is shallowly embedded as follows.

* A storage backend (`BaseStorage`) is a record of state-transforming
  operations over an abstract collection state `σ`.  Each backend call
  `σ → Except PyErr α × σ` returns either a result or a raised error,
  together with the collection state it leaves behind (an error does not
  undo the state the backend had already reached).
* The dispatcher `BaseCrud` holds a model tag and a storage backend, as in
  `BaseCrud.__init__`.  Each dispatcher operation is a Lean function that
  mirrors the corresponding method body line by line: the public closures
  (`get`, `get_many`, ...) forward through `run_async_or_sync` to the
  underscore helpers (`_get`, `_get_many`, ...), which forward to the
  backend.  `async`/`await` collapses in a sequential embedding, so
  `run_async_or_sync` is the identity adapter.
* Python optional parameters (`opr: FilterOp = "eq"`) are embedded as
  `Option String` arguments: a call that omits the argument passes `none`
  and the callee fills in the default.
* In `_put_many` the source invokes `self._put(obj)` with one argument,
  although `_put` requires both `uid` and `obj`; in Python that call
  raises `TypeError` before `_put`'s body runs.  The embedding models the
  ill-arity call site explicitly (`putCallOneArg`), and likewise for
  `_patch_many` / `_patch` (`patchCallOneArg`).
-/

set_option autoImplicit false

universe u v

/-- Errors that can be raised during a dispatcher operation: the backend
error kinds named by the specification (§7) plus Python's `TypeError`,
which a wrong-arity call raises. -/
inductive PyErr where
  | notFound
  | conflict
  | invalidOperator
  | backendUnavailable
  | typeError
  deriving DecidableEq, Repr

/-- A backend call: either a raised error or a result, plus the collection
state the backend leaves behind. -/
def StorageCall (σ : Type u) (α : Type v) : Type (max u v) :=
  σ → Except PyErr α × σ

/-- The storage backend contract (`fastcrud.storage.BaseStorage`): the
capability set {get, get_many, create, put, patch, delete} used by the
dispatcher, polymorphic over the record type `M` and the collection state
`σ`.  `start`/`stop` manage resources outside the collection and are not
needed by any claim. -/
structure BaseStorage (M : Type u) (σ : Type v) where
  get : String → StorageCall σ M
  get_many : String → String → String → StorageCall σ (List M)
  create : M → StorageCall σ M
  put : String → M → StorageCall σ M
  patch : String → M → StorageCall σ M
  delete : String → StorageCall σ Unit

/-- Modelled from the spec: `fastcrud.utils.run_async_or_sync` adapts a
synchronous or asynchronous callee into one uniform awaited call ("the
dispatcher transparently adapts either calling convention", §4.1).  In a
sequential embedding both conventions collapse, so the adapter is the
identity on the applied call. -/
def run_async_or_sync {α : Type u} (call : α) : α := call

/-- The CRUD dispatcher (`BaseCrud.__init__` stores `self.model` and
`self.storage`).  The model is represented by its class name, which is all
the embedded code reads from it. -/
structure BaseCrud (M : Type u) (σ : Type v) where
  model : String
  storage : BaseStorage M σ

variable {M : Type u} {σ : Type v}

/-- `BaseCrud._get`: forward the identifier to `self.storage.get`. -/
def BaseCrud.crudGet (c : BaseCrud M σ) (uid : String) : StorageCall σ M :=
  run_async_or_sync (c.storage.get uid)

/-- The `get` closure bound in `BaseCrud.__init__`: awaits `self._get(uid)`. -/
def BaseCrud.get (c : BaseCrud M σ) (uid : String) : StorageCall σ M :=
  run_async_or_sync (c.crudGet uid)

/-- `BaseCrud._get_many(field, value, opr="eq")`: resolve the optional
operator to its default and forward to `self.storage.get_many`. -/
def BaseCrud.crudGetMany (c : BaseCrud M σ) (field value : String)
    (oprOpt : Option String) : StorageCall σ (List M) :=
  let opr := oprOpt.getD "eq"
  run_async_or_sync (c.storage.get_many field value opr)

/-- The `get_many` closure bound in `BaseCrud.__init__`: its own `opr`
parameter defaults to `"eq"`, and it passes the resolved operator to
`self._get_many` explicitly. -/
def BaseCrud.get_many (c : BaseCrud M σ) (field value : String)
    (oprOpt : Option String) : StorageCall σ (List M) :=
  let opr := oprOpt.getD "eq"
  run_async_or_sync (c.crudGetMany field value (some opr))

/-- `BaseCrud._create`: forward the record to `self.storage.create`. -/
def BaseCrud.crudCreate (c : BaseCrud M σ) (obj : M) : StorageCall σ M :=
  run_async_or_sync (c.storage.create obj)

/-- The `create` closure bound in `BaseCrud.__init__`. -/
def BaseCrud.create (c : BaseCrud M σ) (obj : M) : StorageCall σ M :=
  run_async_or_sync (c.crudCreate obj)

/-- `BaseCrud._create_many`: the list comprehension
`[await self._create(obj) for obj in objs]` — create each record in input
order, sequentially threading the collection state; a raised error aborts
the comprehension, leaving earlier effects in place. -/
def BaseCrud.crudCreateMany (c : BaseCrud M σ) :
    List M → StorageCall σ (List M)
  | [], s => (.ok [], s)
  | obj :: rest, s =>
    match c.crudCreate obj s with
    | (.error e, s1) => (.error e, s1)
    | (.ok r, s1) =>
      match c.crudCreateMany rest s1 with
      | (.error e, s2) => (.error e, s2)
      | (.ok rs, s2) => (.ok (r :: rs), s2)

/-- The `create_many` closure bound in `BaseCrud.__init__`. -/
def BaseCrud.create_many (c : BaseCrud M σ) (objs : List M) :
    StorageCall σ (List M) :=
  run_async_or_sync (c.crudCreateMany objs)

/-- `BaseCrud._put`: forward identifier and record to `self.storage.put`. -/
def BaseCrud.crudPut (c : BaseCrud M σ) (uid : String) (obj : M) :
    StorageCall σ M :=
  run_async_or_sync (c.storage.put uid obj)

/-- The `put` closure bound in `BaseCrud.__init__`. -/
def BaseCrud.put (c : BaseCrud M σ) (uid : String) (obj : M) :
    StorageCall σ M :=
  run_async_or_sync (c.crudPut uid obj)

/-- The call site `self._put(obj)` inside `_put_many`: `_put` requires the
two arguments `uid` and `obj`, so Python raises `TypeError` at the call,
before `_put`'s body (and hence the backend) is ever reached, and the
collection state is untouched. -/
def BaseCrud.putCallOneArg (_c : BaseCrud M σ) (_obj : M) : StorageCall σ M :=
  fun s => (.error .typeError, s)

/-- `BaseCrud._put_many`: the list comprehension
`[await self._put(obj) for obj in objs]`, whose element call is the
ill-arity `self._put(obj)`. -/
def BaseCrud.crudPutMany (c : BaseCrud M σ) :
    List M → StorageCall σ (List M)
  | [], s => (.ok [], s)
  | obj :: rest, s =>
    match c.putCallOneArg obj s with
    | (.error e, s1) => (.error e, s1)
    | (.ok r, s1) =>
      match c.crudPutMany rest s1 with
      | (.error e, s2) => (.error e, s2)
      | (.ok rs, s2) => (.ok (r :: rs), s2)

/-- The `put_many` closure bound in `BaseCrud.__init__`. -/
def BaseCrud.put_many (c : BaseCrud M σ) (objs : List M) :
    StorageCall σ (List M) :=
  run_async_or_sync (c.crudPutMany objs)

/-- `BaseCrud._patch`: forward identifier and record to `self.storage.patch`. -/
def BaseCrud.crudPatch (c : BaseCrud M σ) (uid : String) (obj : M) :
    StorageCall σ M :=
  run_async_or_sync (c.storage.patch uid obj)

/-- The `patch` closure bound in `BaseCrud.__init__`. -/
def BaseCrud.patch (c : BaseCrud M σ) (uid : String) (obj : M) :
    StorageCall σ M :=
  run_async_or_sync (c.crudPatch uid obj)

/-- The call site `self._patch(obj)` inside `_patch_many`: `_patch`
requires both `uid` and `obj`, so Python raises `TypeError` at the call,
before the backend is reached. -/
def BaseCrud.patchCallOneArg (_c : BaseCrud M σ) (_obj : M) : StorageCall σ M :=
  fun s => (.error .typeError, s)

/-- `BaseCrud._patch_many`: the list comprehension
`[await self._patch(obj) for obj in objs]`, whose element call is the
ill-arity `self._patch(obj)`. -/
def BaseCrud.crudPatchMany (c : BaseCrud M σ) :
    List M → StorageCall σ (List M)
  | [], s => (.ok [], s)
  | obj :: rest, s =>
    match c.patchCallOneArg obj s with
    | (.error e, s1) => (.error e, s1)
    | (.ok r, s1) =>
      match c.crudPatchMany rest s1 with
      | (.error e, s2) => (.error e, s2)
      | (.ok rs, s2) => (.ok (r :: rs), s2)

/-- The `patch_many` closure bound in `BaseCrud.__init__`. -/
def BaseCrud.patch_many (c : BaseCrud M σ) (objs : List M) :
    StorageCall σ (List M) :=
  run_async_or_sync (c.crudPatchMany objs)

/-- `BaseCrud._delete`: forward the identifier to `self.storage.delete`. -/
def BaseCrud.crudDelete (c : BaseCrud M σ) (uid : String) : StorageCall σ Unit :=
  run_async_or_sync (c.storage.delete uid)

/-- The `delete` closure bound in `BaseCrud.__init__`. -/
def BaseCrud.delete (c : BaseCrud M σ) (uid : String) : StorageCall σ Unit :=
  run_async_or_sync (c.crudDelete uid)

/-- `BaseCrud._delete_many`: the list comprehension
`[await self._delete(uid) for uid in uids]` — delete each identifier in
input order, sequentially; a raised error aborts the comprehension,
leaving earlier deletions in place. -/
def BaseCrud.crudDeleteMany (c : BaseCrud M σ) :
    List String → StorageCall σ (List Unit)
  | [], s => (.ok [], s)
  | uid :: rest, s =>
    match c.crudDelete uid s with
    | (.error e, s1) => (.error e, s1)
    | (.ok r, s1) =>
      match c.crudDeleteMany rest s1 with
      | (.error e, s2) => (.error e, s2)
      | (.ok rs, s2) => (.ok (r :: rs), s2)

/-- The `delete_many` closure bound in `BaseCrud.__init__`. -/
def BaseCrud.delete_many (c : BaseCrud M σ) (uids : List String) :
    StorageCall σ (List Unit) :=
  run_async_or_sync (c.crudDeleteMany uids)

/-! ### Instrumented backends

To state frame and call-accounting properties ("every mutation reaching
the collection goes through exactly one backend call per input item") we
wrap an arbitrary backend so that its state also records the trace of
backend calls made, in order. -/

/-- One backend call, with its arguments, as recorded by the trace. -/
inductive BackendCall (M : Type u) where
  | get (uid : String)
  | get_many (field value opr : String)
  | create (obj : M)
  | put (uid : String) (obj : M)
  | patch (uid : String) (obj : M)
  | delete (uid : String)

/-- Wrap a backend so every call appends itself to a trace carried next to
the collection state.  The collection component behaves exactly as the
wrapped backend. -/
def BaseStorage.traced {M : Type u} {σ : Type v} (st : BaseStorage M σ) :
    BaseStorage M (σ × List (BackendCall M)) where
  get uid := fun p =>
    let (r, s1) := st.get uid p.1
    (r, (s1, p.2 ++ [.get uid]))
  get_many field value opr := fun p =>
    let (r, s1) := st.get_many field value opr p.1
    (r, (s1, p.2 ++ [.get_many field value opr]))
  create obj := fun p =>
    let (r, s1) := st.create obj p.1
    (r, (s1, p.2 ++ [.create obj]))
  put uid obj := fun p =>
    let (r, s1) := st.put uid obj p.1
    (r, (s1, p.2 ++ [.put uid obj]))
  patch uid obj := fun p =>
    let (r, s1) := st.patch uid obj p.1
    (r, (s1, p.2 ++ [.patch uid obj]))
  delete uid := fun p =>
    let (r, s1) := st.delete uid p.1
    (r, (s1, p.2 ++ [.delete uid]))

/-! ### The dispatcher operations as one syntactic category

`DispatchOp` enumerates the ten public dispatcher operations with their
arguments; `runOp` executes one against a dispatcher.  This lets a single
statement quantify over "every dispatcher operation". -/

/-- A dispatcher operation together with its arguments.  `get_many`
carries an optional operator, as the Python parameter has a default. -/
inductive DispatchOp (M : Type u) where
  | get (uid : String)
  | get_many (field value : String) (oprOpt : Option String)
  | create (obj : M)
  | create_many (objs : List M)
  | put (uid : String) (obj : M)
  | put_many (objs : List M)
  | patch (uid : String) (obj : M)
  | patch_many (objs : List M)
  | delete (uid : String)
  | delete_many (uids : List String)

/-- The result of a dispatcher operation (a record, a list of records, or
the unit results of deletes). -/
inductive DispatchRes (M : Type u) where
  | one (r : M)
  | many (rs : List M)
  | unitRes
  | unitMany (rs : List Unit)

/-- Execute one dispatcher operation: each case forwards to the closure
`BaseCrud.__init__` binds for that operation. -/
def runOp {M : Type u} {σ : Type v} (c : BaseCrud M σ) :
    DispatchOp M → σ → Except PyErr (DispatchRes M) × σ
  | .get uid, s =>
    let (r, s1) := c.get uid s
    (r.map .one, s1)
  | .get_many field value oprOpt, s =>
    let (r, s1) := c.get_many field value oprOpt s
    (r.map .many, s1)
  | .create obj, s =>
    let (r, s1) := c.create obj s
    (r.map .one, s1)
  | .create_many objs, s =>
    let (r, s1) := c.create_many objs s
    (r.map .many, s1)
  | .put uid obj, s =>
    let (r, s1) := c.put uid obj s
    (r.map .one, s1)
  | .put_many objs, s =>
    let (r, s1) := c.put_many objs s
    (r.map .many, s1)
  | .patch uid obj, s =>
    let (r, s1) := c.patch uid obj s
    (r.map .one, s1)
  | .patch_many objs, s =>
    let (r, s1) := c.patch_many objs s
    (r.map .many, s1)
  | .delete uid, s =>
    let (r, s1) := c.delete uid s
    (r.map (fun _ => .unitRes), s1)
  | .delete_many uids, s =>
    let (r, s1) := c.delete_many uids s
    (r.map .unitMany, s1)

/-- The dispatcher together with a collection state: the whole mutable
world a dispatcher call can touch. -/
structure CrudWorld (M : Type u) (σ : Type v) where
  crud : BaseCrud M σ
  col : σ

/-- Execute one dispatcher operation on a world.  The source never assigns
to `self.model` or `self.storage` outside `__init__`, so only the
collection component evolves. -/
def runOpWorld {M : Type u} {σ : Type v} (op : DispatchOp M)
    (w : CrudWorld M σ) : Except PyErr (DispatchRes M) × CrudWorld M σ :=
  let (r, s1) := runOp w.crud op w.col
  (r, { crud := w.crud, col := s1 })

/-- The backend calls a dispatcher operation issues when it succeeds: one
call per input item, in input order (singles are a one-item batch;
`put_many`/`patch_many` succeed only on the empty batch, issuing no call). -/
def expectedCalls {M : Type u} : DispatchOp M → List (BackendCall M)
  | .get uid => [.get uid]
  | .get_many field value oprOpt => [.get_many field value (oprOpt.getD "eq")]
  | .create obj => [.create obj]
  | .create_many objs => objs.map .create
  | .put uid obj => [.put uid obj]
  | .put_many _ => []
  | .patch uid obj => [.patch uid obj]
  | .patch_many _ => []
  | .delete uid => [.delete uid]
  | .delete_many uids => uids.map .delete

/-! ### A concrete storage backend

`src/` carries only `core.py`; the `fastcrud.storage.local.LocalStorage`
module it imports is absent, so the backend is modelled from the
specification and used to instantiate the dispatcher theorems. -/

/-- The collection of a local backend: an association list from
identifier to record, in insertion order. -/
abbrev LocalCol (M : Type u) : Type u := List (String × M)

/-- Whether the collection holds a record under `uid`. -/
def LocalCol.hasUid {M : Type u} (s : LocalCol M) (uid : String) : Bool :=
  s.any (fun p => p.1 = uid)

/-- Modelled from the spec: `fastcrud.storage.local.LocalStorage` (absent
from `src/`), per §4.1/§7 — `get` returns the record at the identifier or
fails with NotFound; `get_many` filters records by `field opr value`,
supporting the minimal operator set {eq} and failing with InvalidOperator
otherwise, with field access supplied by `fieldOf`; `create` stores the
record under its own identifier (`uidOf`) or fails with Conflict if that
identifier exists; `put` fully replaces the record at the identifier or
fails with NotFound; `patch` upserts (replaces if present, inserts if
absent); `delete` removes the record or fails with NotFound. -/
def localStorage {M : Type u} (uidOf : M → String)
    (fieldOf : M → String → Option String) : BaseStorage M (LocalCol M) where
  get uid := fun s =>
    match s.find? (fun p => p.1 = uid) with
    | some p => (.ok p.2, s)
    | none => (.error .notFound, s)
  get_many field value opr := fun s =>
    if opr = "eq" then
      (.ok ((s.filter (fun p => fieldOf p.2 field = some value)).map Prod.snd), s)
    else
      (.error .invalidOperator, s)
  create obj := fun s =>
    if s.hasUid (uidOf obj) then (.error .conflict, s)
    else (.ok obj, s ++ [(uidOf obj, obj)])
  put uid obj := fun s =>
    if s.hasUid uid then
      (.ok obj, s.map (fun p => if p.1 = uid then (uid, obj) else p))
    else (.error .notFound, s)
  patch uid obj := fun s =>
    if s.hasUid uid then
      (.ok obj, s.map (fun p => if p.1 = uid then (uid, obj) else p))
    else (.ok obj, s ++ [(uid, obj)])
  delete uid := fun s =>
    if s.hasUid uid then
      (.ok (), s.filter (fun p => ¬ p.1 = uid))
    else (.error .notFound, s)

/-! ### The entity model

`BaseCrudModel` declares three pydantic fields with default factories:
`uid` from `uuid.uuid1`, `created_on` and `modify_on` from
`datetime.now`.  Construction is embedded as a function of the ambient
environment (the clock and the uuid source sampled at construction) and
of the explicitly supplied field values, `none` meaning "absent". -/

/-- A UUID, by its version number and the fields a version-1 (time-based)
UUID orders by: the 60-bit timestamp, then clock sequence and node. -/
structure ModelUUID where
  version : Nat
  timestamp : Nat
  node : Nat
  deriving DecidableEq, Repr

/-- Python's `uuid.uuid1`: a fresh version-1 UUID, time-ordered by the
timestamp sampled at the call. -/
def uuid1 (timestamp node : Nat) : ModelUUID :=
  { version := 1, timestamp := timestamp, node := node }

/-- The ambient environment a `BaseCrudModel` construction samples:
`datetime.now()` and the uuid source. -/
structure ModelEnv where
  now : Nat
  uuidTimestamp : Nat
  uuidNode : Nat

/-- The three implicit fields of `BaseCrudModel` (caller-defined schema
fields live in subclasses and are not read by the embedded code). -/
structure BaseCrudModel where
  uid : ModelUUID
  created_on : Nat
  modify_on : Nat
  deriving DecidableEq, Repr

/-- Construct a `BaseCrudModel` as pydantic does: each field takes the
explicitly supplied value when present, otherwise its default factory is
invoked — `uuid.uuid1` for `uid`, `datetime.now` for `created_on` and
`modify_on`. -/
def mkBaseCrudModel (env : ModelEnv) (uidOpt : Option ModelUUID)
    (createdOpt modifyOpt : Option Nat) : BaseCrudModel :=
  { uid := uidOpt.getD (uuid1 env.uuidTimestamp env.uuidNode)
    created_on := createdOpt.getD env.now
    modify_on := modifyOpt.getD env.now }

/-! ### The router -/

/-- Python `str.lower()` on the embedded string. -/
def pyLower (s : String) : String :=
  ⟨s.toList.map Char.toLower⟩

/-- The `CRUDRouter` state read by its `tag`/`prefix` properties: the
entity model class, represented by its `__name__`. -/
structure CRUDRouter where
  modelName : String

/-- The `tag` property: `self.model.__name__`. -/
def CRUDRouter.tag (r : CRUDRouter) : String := r.modelName

/-- The `prefix` property of `CRUDRouter`:
`f"/{self.tag}".lower()` — the slash is prepended first and the whole
string is lowercased. -/
def CRUDRouter.routePrefix (r : CRUDRouter) : String :=
  pyLower ("/" ++ r.tag)

/-! ### Proof-layer machinery for the bulk operations

Every `*_many` method is the Python list comprehension
`[await step(item) for item in items]`: items are processed sequentially
in input order, state threads left to right, and a raised error aborts
the comprehension leaving earlier effects in place.  `pyListComp`
captures that shape once; each `crud*Many` is proved equal to an
instance of it. -/

universe w x y

/-- Sequential effectful traversal with abort-on-error: the semantics of
`[await step(item) for item in items]`. -/
def pyListComp {α : Type w} {σ : Type v} {β : Type x}
    (f : α → StorageCall σ β) : List α → StorageCall σ (List β)
  | [], s => (.ok [], s)
  | a :: as, s =>
    match f a s with
    | (.error e, s1) => (.error e, s1)
    | (.ok r, s1) =>
      match pyListComp f as s1 with
      | (.error e, s2) => (.error e, s2)
      | (.ok rs, s2) => (.ok (r :: rs), s2)

/-! ### Concrete instances used to instantiate the theorems -/

/-- A concrete local backend over the entity model: every record is keyed
by the constant identifier "a" and exposes no schema fields. -/
def witnessStorage : BaseStorage BaseCrudModel (LocalCol BaseCrudModel) :=
  localStorage (fun _ => "a") (fun _ _ => none)

/-- A dispatcher over the concrete local backend. -/
def witnessCrud : BaseCrud BaseCrudModel (LocalCol BaseCrudModel) :=
  ⟨"Model", witnessStorage⟩

/-- A concrete entity record. -/
def witnessRecord : BaseCrudModel :=
  ⟨uuid1 0 0, 0, 0⟩

/-- The dispatcher over the concrete local backend, with an empty model
name (the dispatcher never reads it). -/
def witnessCrud0 : BaseCrud BaseCrudModel (LocalCol BaseCrudModel) :=
  ⟨"", witnessStorage⟩

/-! ### Lemmas about the bulk-operation shape -/

lemma pyListComp_nil {α : Type w} {σ : Type v} {β : Type x}
    (f : α → StorageCall σ β) (s : σ) : pyListComp f [] s = (.ok [], s) := rfl

lemma pyListComp_cons_err {α : Type w} {σ : Type v} {β : Type x}
    (f : α → StorageCall σ β) {a : α} {s : σ} {e : PyErr} {s1 : σ}
    (as : List α) (h : f a s = (.error e, s1)) :
    pyListComp f (a :: as) s = (.error e, s1) := by
  simp only [pyListComp, h]

lemma pyListComp_cons_ok {α : Type w} {σ : Type v} {β : Type x}
    (f : α → StorageCall σ β) {a : α} {s : σ} {r : β} {s1 : σ}
    (as : List α) (h : f a s = (.ok r, s1)) :
    pyListComp f (a :: as) s =
      (match pyListComp f as s1 with
       | (.error e, s2) => (.error e, s2)
       | (.ok rs, s2) => (.ok (r :: rs), s2)) := by
  simp only [pyListComp, h]

lemma pyListComp_cons_ok_ok {α : Type w} {σ : Type v} {β : Type x}
    (f : α → StorageCall σ β) {a : α} {s : σ} {r : β} {s1 : σ}
    {rs : List β} {s2 : σ} (as : List α)
    (h1 : f a s = (.ok r, s1)) (h2 : pyListComp f as s1 = (.ok rs, s2)) :
    pyListComp f (a :: as) s = (.ok (r :: rs), s2) := by
  rw [pyListComp_cons_ok f as h1, h2]

lemma pyListComp_cons_ok_err {α : Type w} {σ : Type v} {β : Type x}
    (f : α → StorageCall σ β) {a : α} {s : σ} {r : β} {s1 : σ}
    {e : PyErr} {s2 : σ} (as : List α)
    (h1 : f a s = (.ok r, s1)) (h2 : pyListComp f as s1 = (.error e, s2)) :
    pyListComp f (a :: as) s = (.error e, s2) := by
  rw [pyListComp_cons_ok f as h1, h2]

/-- If a prefix of the batch runs through successfully and the next item's
step raises `e`, the whole comprehension raises `e` from the state the
successful prefix (and the failing step) left behind: later items are
never processed and earlier effects are not rolled back. -/
lemma pyListComp_append_fail {α : Type w} {σ : Type v} {β : Type x}
    (f : α → StorageCall σ β) (done : List α) :
    ∀ {a : α} (as : List α) {s : σ} {rs : List β} {s1 : σ} {e : PyErr} {s2 : σ},
      pyListComp f done s = (.ok rs, s1) →
      f a s1 = (.error e, s2) →
      pyListComp f (done ++ a :: as) s = (.error e, s2) := by
  induction done with
  | nil =>
    intro a as s rs s1 e s2 h1 h2
    simp only [pyListComp, Prod.mk.injEq, Except.ok.injEq] at h1
    obtain ⟨-, h4⟩ := h1
    subst h4
    exact pyListComp_cons_err f as h2
  | cons d ds ih =>
    intro a as s rs s1 e s2 h1 h2
    rcases hc : f d s with ⟨cr, cs⟩
    cases cr with
    | error e0 =>
      rw [pyListComp_cons_err f ds hc] at h1
      simp at h1
    | ok r0 =>
      rw [pyListComp_cons_ok f ds hc] at h1
      rcases hrec : pyListComp f ds cs with ⟨rr, ss⟩
      rw [hrec] at h1
      cases rr with
      | error e1 => simp at h1
      | ok rs0 =>
        simp only [Prod.mk.injEq, Except.ok.injEq] at h1
        obtain ⟨-, h4⟩ := h1
        subst h4
        rw [List.cons_append]
        exact pyListComp_cons_ok_err f (ds ++ a :: as) hc (ih as hrec h2)

/-- Running a comprehension over an instrumented step that also records a
call per item: when it succeeds, the plain run succeeds with the same
results and state, and the trace grows by exactly one recorded call per
input item, in input order. -/
lemma pyListComp_traced {α : Type w} {σ : Type v} {β : Type x} {τ : Type y}
    (f : α → StorageCall σ β) (g : α → StorageCall (σ × List τ) β)
    (callOf : α → τ)
    (hfg : ∀ (a : α) (s : σ) (t : List τ),
      g a (s, t) = ((f a s).1, ((f a s).2, t ++ [callOf a])))
    (as : List α) :
    ∀ (s : σ) (t : List τ) (rs : List β) (s1 : σ) (t1 : List τ),
      pyListComp g as (s, t) = (.ok rs, (s1, t1)) →
      pyListComp f as s = (.ok rs, s1) ∧ t1 = t ++ as.map callOf := by
  induction as with
  | nil =>
    intro s t rs s1 t1 h
    simp only [pyListComp, Prod.mk.injEq, Except.ok.injEq] at h
    obtain ⟨h1, h2, h3⟩ := h
    subst h2
    subst h3
    exact ⟨by rw [pyListComp_nil, h1], by simp⟩
  | cons a as ih =>
    intro s t rs s1 t1 h
    rcases hx : f a s with ⟨r0, s0⟩
    have hg : g a (s, t) = (r0, (s0, t ++ [callOf a])) := by
      rw [hfg, hx]
    cases r0 with
    | error e =>
      rw [pyListComp_cons_err g as hg] at h
      simp at h
    | ok rr =>
      rw [pyListComp_cons_ok g as hg] at h
      rcases hrec : pyListComp g as (s0, t ++ [callOf a]) with ⟨pr, ps⟩
      rw [hrec] at h
      cases pr with
      | error e => simp at h
      | ok prs =>
        simp only [Prod.mk.injEq, Except.ok.injEq] at h
        obtain ⟨h1, h2⟩ := h
        subst h1
        rw [h2] at hrec
        obtain ⟨ih1, ih2⟩ := ih s0 (t ++ [callOf a]) prs s1 t1 hrec
        refine ⟨pyListComp_cons_ok_ok f as hx ih1, ?_⟩
        rw [ih2, List.map_cons, List.append_assoc]
        rfl

/-- `_create_many` is the comprehension over the backend's `create`. -/
lemma crudCreateMany_eq (c : BaseCrud M σ) (objs : List M) (s : σ) :
    c.crudCreateMany objs s =
      pyListComp (fun obj => c.storage.create obj) objs s := by
  induction objs generalizing s with
  | nil => rfl
  | cons o os ih =>
    simp only [BaseCrud.crudCreateMany, pyListComp, BaseCrud.crudCreate,
      run_async_or_sync]
    rcases c.storage.create o s with ⟨r, s1⟩
    cases r with
    | error e => rfl
    | ok r0 =>
      simp only [ih]
      rcases pyListComp (fun obj => c.storage.create obj) os s1 with ⟨rr, ss⟩
      cases rr <;> rfl

/-- `_delete_many` is the comprehension over the backend's `delete`. -/
lemma crudDeleteMany_eq (c : BaseCrud M σ) (uids : List String) (s : σ) :
    c.crudDeleteMany uids s =
      pyListComp (fun uid => c.storage.delete uid) uids s := by
  induction uids generalizing s with
  | nil => rfl
  | cons u us ih =>
    simp only [BaseCrud.crudDeleteMany, pyListComp, BaseCrud.crudDelete,
      run_async_or_sync]
    rcases c.storage.delete u s with ⟨r, s1⟩
    cases r with
    | error e => rfl
    | ok r0 =>
      simp only [ih]
      rcases pyListComp (fun uid => c.storage.delete uid) us s1 with ⟨rr, ss⟩
      cases rr <;> rfl

/-- `_put_many` is the comprehension over the ill-arity call, which never
reaches the backend. -/
lemma crudPutMany_eq (c : BaseCrud M σ) (objs : List M) (s : σ) :
    c.crudPutMany objs s =
      pyListComp (fun obj => c.putCallOneArg obj) objs s := by
  cases objs with
  | nil => rfl
  | cons o os => rfl

/-- `_patch_many` is the comprehension over the ill-arity call, which
never reaches the backend. -/
lemma crudPatchMany_eq (c : BaseCrud M σ) (objs : List M) (s : σ) :
    c.crudPatchMany objs s =
      pyListComp (fun obj => c.patchCallOneArg obj) objs s := by
  cases objs with
  | nil => rfl
  | cons o os => rfl

/-! ### Claim theorems -/

/-- C1: the claim reads `put_many(objs)` as applying `put` to each record,
forwarding it to the backend, under `create_many`'s partial-failure
policy.  The code does not do this: `_put_many` invokes `self._put(obj)`
with a single argument while `_put` requires `uid` and `obj`, so on any
non-empty batch Python raises `TypeError` at the first item, before any
backend `put` is issued (the traced run records no backend call and the
collection is untouched); only the empty batch "succeeds", trivially. -/
theorem put_many_type_error (st : BaseStorage M σ) (obj : M) (rest : List M)
    (s : σ) (t : List (BackendCall M)) :
    BaseCrud.put_many ⟨"", st⟩ (obj :: rest) s = (.error .typeError, s) ∧
    BaseCrud.put_many ⟨"", st.traced⟩ (obj :: rest) (s, t) =
      (.error .typeError, (s, t)) ∧
    BaseCrud.put_many ⟨"", st⟩ ([] : List M) s = (.ok [], s) :=
  ⟨rfl, rfl, rfl⟩

/-- C2: the claim reads `patch_many(objs)` as applying `patch` to each
record, forwarding it to the backend.  As with `put_many`, the code's
`_patch_many` invokes `self._patch(obj)` with one argument while `_patch`
requires `uid` and `obj`, so on any non-empty batch Python raises
`TypeError` at the first item, before any backend `patch` is issued. -/
theorem patch_many_type_error (st : BaseStorage M σ) (obj : M) (rest : List M)
    (s : σ) (t : List (BackendCall M)) :
    BaseCrud.patch_many ⟨"", st⟩ (obj :: rest) s = (.error .typeError, s) ∧
    BaseCrud.patch_many ⟨"", st.traced⟩ (obj :: rest) (s, t) =
      (.error .typeError, (s, t)) ∧
    BaseCrud.patch_many ⟨"", st⟩ ([] : List M) s = (.ok [], s) :=
  ⟨rfl, rfl, rfl⟩

/-- C6: a `BaseCrudModel` constructed without explicit values for the
implicit fields gets a freshly generated version-1 (time-ordered) UUID as
identifier, and both `created_on` and `modify_on` default to the clock
value sampled at construction. -/
theorem baseCrudModel_defaults (env : ModelEnv) :
    (mkBaseCrudModel env none none none).uid =
      uuid1 env.uuidTimestamp env.uuidNode ∧
    (mkBaseCrudModel env none none none).uid.version = 1 ∧
    (mkBaseCrudModel env none none none).uid.timestamp = env.uuidTimestamp ∧
    (mkBaseCrudModel env none none none).created_on = env.now ∧
    (mkBaseCrudModel env none none none).modify_on = env.now :=
  ⟨rfl, rfl, rfl, rfl, rfl⟩

/-- C7: `get(uid)` forwards the identifier unchanged to the backend's
`get` and returns exactly what the backend returns; in particular, with a
backend that signals NotFound for the absent identifier, `get` fails with
NotFound. -/
theorem get_forwards (c : BaseCrud M σ) (uid : String) (s : σ) :
    c.get uid s = c.storage.get uid s ∧
    (∀ s1, c.storage.get uid s = (.error .notFound, s1) →
      c.get uid s = (.error .notFound, s1)) :=
  ⟨rfl, fun _ h => h⟩

/-- Witness for C7: on the concrete empty collection, the local backend
signals NotFound for "x" and so does the dispatcher's `get`. -/
theorem get_forwards_witness :
    witnessCrud.get "x" [] = (.error .notFound, []) :=
  (get_forwards witnessCrud "x" []).2 [] (by rfl)

/-- C9: the `prefix` property of `CRUDRouter` is "/" followed by the
lowercased name of the entity model class. -/
theorem routePrefix_eq (r : CRUDRouter) :
    r.routePrefix = "/" ++ pyLower r.modelName := by
  obtain ⟨⟨l⟩⟩ := r
  show pyLower ("/" ++ String.mk l) = "/" ++ pyLower (String.mk l)
  rfl

/-- C10: a `get_many` call that omits the operator argument behaves
exactly as one passing "eq", and the backend receives the operator
"eq". -/
theorem get_many_default_eq (c : BaseCrud M σ) (field value : String) (s : σ) :
    c.get_many field value none s = c.get_many field value (some "eq") s ∧
    c.get_many field value none s = c.storage.get_many field value "eq" s :=
  ⟨rfl, rfl⟩

/-! ### Equations of the instrumented backend -/

lemma traced_get (st : BaseStorage M σ) (uid : String) (s : σ)
    (t : List (BackendCall M)) :
    st.traced.get uid (s, t) =
      ((st.get uid s).1, ((st.get uid s).2, t ++ [BackendCall.get uid])) := by
  rcases hg : st.get uid s with ⟨gr, gs⟩
  simp [BaseStorage.traced, hg]

lemma traced_get_many (st : BaseStorage M σ) (field value opr : String) (s : σ)
    (t : List (BackendCall M)) :
    st.traced.get_many field value opr (s, t) =
      ((st.get_many field value opr s).1,
        ((st.get_many field value opr s).2,
          t ++ [BackendCall.get_many field value opr])) := by
  rcases hg : st.get_many field value opr s with ⟨gr, gs⟩
  simp [BaseStorage.traced, hg]

lemma traced_create (st : BaseStorage M σ) (obj : M) (s : σ)
    (t : List (BackendCall M)) :
    st.traced.create obj (s, t) =
      ((st.create obj s).1, ((st.create obj s).2, t ++ [BackendCall.create obj])) := by
  rcases hg : st.create obj s with ⟨gr, gs⟩
  simp [BaseStorage.traced, hg]

lemma traced_put (st : BaseStorage M σ) (uid : String) (obj : M) (s : σ)
    (t : List (BackendCall M)) :
    st.traced.put uid obj (s, t) =
      ((st.put uid obj s).1, ((st.put uid obj s).2, t ++ [BackendCall.put uid obj])) := by
  rcases hg : st.put uid obj s with ⟨gr, gs⟩
  simp [BaseStorage.traced, hg]

lemma traced_patch (st : BaseStorage M σ) (uid : String) (obj : M) (s : σ)
    (t : List (BackendCall M)) :
    st.traced.patch uid obj (s, t) =
      ((st.patch uid obj s).1, ((st.patch uid obj s).2, t ++ [BackendCall.patch uid obj])) := by
  rcases hg : st.patch uid obj s with ⟨gr, gs⟩
  simp [BaseStorage.traced, hg]

lemma traced_delete (st : BaseStorage M σ) (uid : String) (s : σ)
    (t : List (BackendCall M)) :
    st.traced.delete uid (s, t) =
      ((st.delete uid s).1, ((st.delete uid s).2, t ++ [BackendCall.delete uid])) := by
  rcases hg : st.delete uid s with ⟨gr, gs⟩
  simp [BaseStorage.traced, hg]

/-! ### Lemmas about the modelled local collection -/

lemma hasUid_filter_false {Y : String} (p : String × M → Bool) (s : LocalCol M)
    (h : s.hasUid Y = false) : LocalCol.hasUid (s.filter p) Y = false := by
  simp only [LocalCol.hasUid, List.any_eq_false] at h ⊢
  intro x hx
  exact h x (List.mem_filter.mp hx).1

lemma find_filter_none (X : String) (s : LocalCol M) :
    (s.filter (fun p => ¬ p.1 = X)).find? (fun p => p.1 = X) = none := by
  simp only [List.find?_eq_none]
  intro x hx
  have hmem := (List.mem_filter.mp hx).2
  simp only [decide_eq_true_eq] at hmem ⊢
  exact hmem

/-- C3: the dispatcher surfaces backend errors unchanged.  Every
single-item operation returns exactly the backend call's outcome (so no
error is caught, translated, or suppressed), and in each bulk operation
the first backend failure — whether at the head or after successful
earlier items — propagates as is, with no aggregation.  `put_many` and
`patch_many` raise `TypeError` before any backend call, so no backend
error can arise during them. -/
theorem dispatcher_error_propagation (c : BaseCrud M σ) :
    (∀ (uid : String) (s : σ), c.get uid s = c.storage.get uid s) ∧
    (∀ (field value opr : String) (s : σ),
      c.get_many field value (some opr) s = c.storage.get_many field value opr s) ∧
    (∀ (field value : String) (s : σ),
      c.get_many field value none s = c.storage.get_many field value "eq" s) ∧
    (∀ (obj : M) (s : σ), c.create obj s = c.storage.create obj s) ∧
    (∀ (uid : String) (obj : M) (s : σ),
      c.put uid obj s = c.storage.put uid obj s) ∧
    (∀ (uid : String) (obj : M) (s : σ),
      c.patch uid obj s = c.storage.patch uid obj s) ∧
    (∀ (uid : String) (s : σ), c.delete uid s = c.storage.delete uid s) ∧
    (∀ (obj : M) (rest : List M) (s : σ) (e : PyErr) (s1 : σ),
      c.storage.create obj s = (.error e, s1) →
      c.create_many (obj :: rest) s = (.error e, s1)) ∧
    (∀ (obj : M) (rest : List M) (s : σ) (r : M) (s1 : σ) (e : PyErr) (s2 : σ),
      c.storage.create obj s = (.ok r, s1) →
      c.create_many rest s1 = (.error e, s2) →
      c.create_many (obj :: rest) s = (.error e, s2)) ∧
    (∀ (uid : String) (rest : List String) (s : σ) (e : PyErr) (s1 : σ),
      c.storage.delete uid s = (.error e, s1) →
      c.delete_many (uid :: rest) s = (.error e, s1)) ∧
    (∀ (uid : String) (rest : List String) (s : σ) (r : Unit) (s1 : σ)
      (e : PyErr) (s2 : σ),
      c.storage.delete uid s = (.ok r, s1) →
      c.delete_many rest s1 = (.error e, s2) →
      c.delete_many (uid :: rest) s = (.error e, s2)) := by
  refine ⟨fun _ _ => rfl, fun _ _ _ _ => rfl, fun _ _ _ => rfl, fun _ _ => rfl,
    fun _ _ _ => rfl, fun _ _ _ => rfl, fun _ _ => rfl, ?_, ?_, ?_, ?_⟩
  · intro obj rest s e s1 h
    exact (crudCreateMany_eq c (obj :: rest) s).trans (pyListComp_cons_err _ rest h)
  · intro obj rest s r s1 e s2 h1 h2
    exact (crudCreateMany_eq c (obj :: rest) s).trans
      (pyListComp_cons_ok_err _ rest h1 ((crudCreateMany_eq c rest s1).symm.trans h2))
  · intro uid rest s e s1 h
    exact (crudDeleteMany_eq c (uid :: rest) s).trans (pyListComp_cons_err _ rest h)
  · intro uid rest s r s1 e s2 h1 h2
    exact (crudDeleteMany_eq c (uid :: rest) s).trans
      (pyListComp_cons_ok_err _ rest h1 ((crudDeleteMany_eq c rest s1).symm.trans h2))

/-- Witness for C3: on a collection already holding the identifier "a",
the backend's `create` raises Conflict, and `create_many` surfaces that
very error. -/
theorem dispatcher_error_propagation_witness :
    BaseCrud.create_many witnessCrud0 [witnessRecord] [("a", witnessRecord)] =
      (.error .conflict, [("a", witnessRecord)]) :=
  (dispatcher_error_propagation witnessCrud0).2.2.2.2.2.2.2.1 witnessRecord []
    [("a", witnessRecord)] .conflict [("a", witnessRecord)] (by rfl)

/-- C4: `create_many` issues one backend `create` per record, strictly in
input order and sequentially.  First conjunct: a successful run through
the instrumented backend issues exactly the record's `create` calls in
input order (and matches the plain run).  Second conjunct: if the first
`done.length` creations succeed and the next one fails with `e`, the
whole batch fails with `e` from the state the failure left — the
remaining records are never processed (the result does not depend on
`rest`) and the earlier creations stay in the collection (no rollback). -/
theorem create_many_spec (st : BaseStorage M σ) :
    (∀ (objs : List M) (s : σ) (t : List (BackendCall M)) (rs : List M)
      (s1 : σ) (t1 : List (BackendCall M)),
      BaseCrud.create_many ⟨"", st.traced⟩ objs (s, t) = (.ok rs, (s1, t1)) →
      BaseCrud.create_many ⟨"", st⟩ objs s = (.ok rs, s1) ∧
      t1 = t ++ objs.map BackendCall.create) ∧
    (∀ (done : List M) (obj : M) (rest : List M) (s : σ) (rs : List M)
      (s1 : σ) (e : PyErr) (s2 : σ),
      BaseCrud.create_many ⟨"", st⟩ done s = (.ok rs, s1) →
      st.create obj s1 = (.error e, s2) →
      BaseCrud.create_many ⟨"", st⟩ (done ++ obj :: rest) s = (.error e, s2)) := by
  constructor
  · intro objs s t rs s1 t1 h
    have h0 : pyListComp (fun obj => st.traced.create obj) objs (s, t) =
        (.ok rs, (s1, t1)) :=
      (crudCreateMany_eq ⟨"", st.traced⟩ objs (s, t)).symm.trans h
    obtain ⟨hA, hB⟩ := pyListComp_traced (fun obj => st.create obj)
      (fun obj => st.traced.create obj) BackendCall.create
      (fun a s0 t0 => traced_create st a s0 t0) objs s t rs s1 t1 h0
    exact ⟨(crudCreateMany_eq ⟨"", st⟩ objs s).trans hA, hB⟩
  · intro done obj rest s rs s1 e s2 h1 h2
    have h1' : pyListComp (fun o => st.create o) done s = (.ok rs, s1) :=
      (crudCreateMany_eq ⟨"", st⟩ done s).symm.trans h1
    exact (crudCreateMany_eq ⟨"", st⟩ (done ++ obj :: rest) s).trans
      (pyListComp_append_fail (fun o => st.create o) done rest h1' h2)

/-- Witness for C4: with a backend keying every record to the identifier
"a", the first creation of three succeeds and the second raises Conflict;
the batch fails with Conflict, the first record stays stored, and the
third was never attempted. -/
theorem create_many_spec_witness :
    BaseCrud.create_many witnessCrud0 [witnessRecord, witnessRecord, witnessRecord]
      [] = (.error .conflict, [("a", witnessRecord)]) :=
  (create_many_spec witnessStorage).2 [witnessRecord] witnessRecord
    [witnessRecord] [] [witnessRecord] [("a", witnessRecord)] .conflict
    [("a", witnessRecord)] (by rfl) (by rfl)

/-- C5: with the modelled local backend, `delete_many [X, Y]` on a
collection holding X but not Y deletes X, then fails with NotFound on Y;
the result state is the collection with X removed, so a subsequent
`get(X)` on it fails with NotFound — the partial completion is
observable. -/
theorem delete_many_observable (uidOf : M → String)
    (fieldOf : M → String → Option String) (X Y : String) (s : LocalCol M)
    (hX : s.hasUid X = true) (hY : s.hasUid Y = false) :
    BaseCrud.delete_many ⟨"", localStorage uidOf fieldOf⟩ [X, Y] s =
      (.error .notFound, s.filter (fun p => ¬ p.1 = X)) ∧
    BaseCrud.get ⟨"", localStorage uidOf fieldOf⟩ X
        (s.filter (fun p => ¬ p.1 = X)) =
      (.error .notFound, s.filter (fun p => ¬ p.1 = X)) := by
  have hdel1 : (localStorage uidOf fieldOf).delete X s =
      (.ok (), s.filter (fun p => ¬ p.1 = X)) := by
    simp [localStorage, hX]
  have hs1 : LocalCol.hasUid (s.filter (fun p => ¬ p.1 = X)) Y = false :=
    hasUid_filter_false _ s hY
  simp only [decide_not] at hs1
  have hdel2 : (localStorage uidOf fieldOf).delete Y
      (s.filter (fun p => ¬ p.1 = X)) =
      (.error .notFound, s.filter (fun p => ¬ p.1 = X)) := by
    simp [localStorage, hs1]
  constructor
  · exact (crudDeleteMany_eq ⟨"", localStorage uidOf fieldOf⟩ [X, Y] s).trans
      (pyListComp_cons_ok_err _ [Y] hdel1 (pyListComp_cons_err _ [] hdel2))
  · show (localStorage uidOf fieldOf).get X (s.filter (fun p => ¬ p.1 = X)) = _
    simp only [localStorage]
    rw [find_filter_none X s]

/-- Witness for C5: on the one-record collection holding "a",
`delete_many ["a", "b"]` deletes "a" and then fails NotFound on "b",
leaving the empty collection, where `get "a"` fails NotFound. -/
theorem delete_many_observable_witness :
    BaseCrud.delete_many witnessCrud0 ["a", "b"] [("a", witnessRecord)] =
      (.error .notFound, []) ∧
    BaseCrud.get witnessCrud0 "a" [] = (.error .notFound, []) :=
  delete_many_observable (fun _ => "a") (fun _ _ => none) "a" "b"
    [("a", witnessRecord)] (by rfl) (by rfl)

/-- C8: dispatcher operations have no side effect beyond the backend's
collection.  First conjunct: running any operation leaves the
dispatcher's own fields (`model`, `storage`) unchanged.  Second conjunct:
under an instrumented backend, a successful operation issues exactly the
backend calls `expectedCalls` lists — one call per input item, in input
order — and the collection evolves exactly as the plain run through those
backend calls. -/
theorem dispatcher_frame (st : BaseStorage M σ) :
    (∀ (op : DispatchOp M) (w : CrudWorld M σ),
      (runOpWorld op w).2.crud = w.crud) ∧
    (∀ (op : DispatchOp M) (s : σ) (t : List (BackendCall M))
      (r : DispatchRes M) (s1 : σ) (t1 : List (BackendCall M)),
      runOp ⟨"", st.traced⟩ op (s, t) = (.ok r, (s1, t1)) →
      t1 = t ++ expectedCalls op ∧ runOp ⟨"", st⟩ op s = (.ok r, s1)) := by
  constructor
  · intro op w
    rcases h : runOp w.crud op w.col with ⟨r, s1⟩
    simp [runOpWorld, h]
  · intro op s t r s1 t1 h
    cases op with
    | get uid =>
      rcases hg : st.get uid s with ⟨gr, gs⟩
      simp only [runOp, BaseCrud.get, BaseCrud.crudGet, run_async_or_sync,
        traced_get, hg] at h
      cases gr with
      | error e => simp [Except.map] at h
      | ok m =>
        simp only [Except.map, Prod.mk.injEq, Except.ok.injEq] at h
        obtain ⟨h1, h2, h3⟩ := h
        subst h1
        subst h2
        subst h3
        refine ⟨rfl, ?_⟩
        simp [runOp, BaseCrud.get, BaseCrud.crudGet, run_async_or_sync, hg,
          Except.map]
    | get_many field value oprOpt =>
      rcases hg : st.get_many field value (oprOpt.getD "eq") s with ⟨gr, gs⟩
      simp only [runOp, BaseCrud.get_many, BaseCrud.crudGetMany,
        run_async_or_sync, Option.getD_some, traced_get_many, hg] at h
      cases gr with
      | error e => simp [Except.map] at h
      | ok ms =>
        simp only [Except.map, Prod.mk.injEq, Except.ok.injEq] at h
        obtain ⟨h1, h2, h3⟩ := h
        subst h1
        subst h2
        subst h3
        refine ⟨rfl, ?_⟩
        simp [runOp, BaseCrud.get_many, BaseCrud.crudGetMany,
          run_async_or_sync, Option.getD_some, hg, Except.map]
    | create obj =>
      rcases hg : st.create obj s with ⟨gr, gs⟩
      simp only [runOp, BaseCrud.create, BaseCrud.crudCreate,
        run_async_or_sync, traced_create, hg] at h
      cases gr with
      | error e => simp [Except.map] at h
      | ok m =>
        simp only [Except.map, Prod.mk.injEq, Except.ok.injEq] at h
        obtain ⟨h1, h2, h3⟩ := h
        subst h1
        subst h2
        subst h3
        refine ⟨rfl, ?_⟩
        simp [runOp, BaseCrud.create, BaseCrud.crudCreate, run_async_or_sync,
          hg, Except.map]
    | create_many objs =>
      rcases hpc : pyListComp (fun obj => st.traced.create obj) objs (s, t)
        with ⟨pr, pp⟩
      rcases pp with ⟨ps, pt⟩
      have hcm : BaseCrud.create_many
          (⟨"", st.traced⟩ : BaseCrud M (σ × List (BackendCall M))) objs (s, t) =
          (pr, (ps, pt)) :=
        (crudCreateMany_eq ⟨"", st.traced⟩ objs (s, t)).trans hpc
      simp only [runOp, hcm] at h
      cases pr with
      | error e => simp [Except.map] at h
      | ok rs0 =>
        simp only [Except.map, Prod.mk.injEq, Except.ok.injEq] at h
        obtain ⟨h1, h2, h3⟩ := h
        subst h1
        subst h2
        subst h3
        obtain ⟨hA, hB⟩ := pyListComp_traced (fun o => st.create o)
          (fun o => st.traced.create o) BackendCall.create
          (fun a s0 t0 => traced_create st a s0 t0) objs s t rs0 ps pt hpc
        refine ⟨hB, ?_⟩
        have hplain : BaseCrud.create_many (⟨"", st⟩ : BaseCrud M σ) objs s =
            (.ok rs0, ps) :=
          (crudCreateMany_eq ⟨"", st⟩ objs s).trans hA
        simp [runOp, hplain, Except.map]
    | put uid obj =>
      rcases hg : st.put uid obj s with ⟨gr, gs⟩
      simp only [runOp, BaseCrud.put, BaseCrud.crudPut, run_async_or_sync,
        traced_put, hg] at h
      cases gr with
      | error e => simp [Except.map] at h
      | ok m =>
        simp only [Except.map, Prod.mk.injEq, Except.ok.injEq] at h
        obtain ⟨h1, h2, h3⟩ := h
        subst h1
        subst h2
        subst h3
        refine ⟨rfl, ?_⟩
        simp [runOp, BaseCrud.put, BaseCrud.crudPut, run_async_or_sync, hg,
          Except.map]
    | put_many objs =>
      cases objs with
      | nil =>
        simp only [runOp, BaseCrud.put_many, BaseCrud.crudPutMany,
          run_async_or_sync, Except.map, Prod.mk.injEq, Except.ok.injEq] at h
        obtain ⟨h1, h2, h3⟩ := h
        subst h1
        subst h2
        subst h3
        exact ⟨by simp [expectedCalls], by
          simp [runOp, BaseCrud.put_many, BaseCrud.crudPutMany,
            run_async_or_sync, Except.map]⟩
      | cons o os =>
        simp only [runOp, BaseCrud.put_many, BaseCrud.crudPutMany,
          BaseCrud.putCallOneArg, run_async_or_sync] at h
        simp [Except.map] at h
    | patch uid obj =>
      rcases hg : st.patch uid obj s with ⟨gr, gs⟩
      simp only [runOp, BaseCrud.patch, BaseCrud.crudPatch, run_async_or_sync,
        traced_patch, hg] at h
      cases gr with
      | error e => simp [Except.map] at h
      | ok m =>
        simp only [Except.map, Prod.mk.injEq, Except.ok.injEq] at h
        obtain ⟨h1, h2, h3⟩ := h
        subst h1
        subst h2
        subst h3
        refine ⟨rfl, ?_⟩
        simp [runOp, BaseCrud.patch, BaseCrud.crudPatch, run_async_or_sync,
          hg, Except.map]
    | patch_many objs =>
      cases objs with
      | nil =>
        simp only [runOp, BaseCrud.patch_many, BaseCrud.crudPatchMany,
          run_async_or_sync, Except.map, Prod.mk.injEq, Except.ok.injEq] at h
        obtain ⟨h1, h2, h3⟩ := h
        subst h1
        subst h2
        subst h3
        exact ⟨by simp [expectedCalls], by
          simp [runOp, BaseCrud.patch_many, BaseCrud.crudPatchMany,
            run_async_or_sync, Except.map]⟩
      | cons o os =>
        simp only [runOp, BaseCrud.patch_many, BaseCrud.crudPatchMany,
          BaseCrud.patchCallOneArg, run_async_or_sync] at h
        simp [Except.map] at h
    | delete uid =>
      rcases hg : st.delete uid s with ⟨gr, gs⟩
      simp only [runOp, BaseCrud.delete, BaseCrud.crudDelete,
        run_async_or_sync, traced_delete, hg] at h
      cases gr with
      | error e => simp [Except.map] at h
      | ok m =>
        simp only [Except.map, Prod.mk.injEq, Except.ok.injEq] at h
        obtain ⟨h1, h2, h3⟩ := h
        subst h1
        subst h2
        subst h3
        refine ⟨rfl, ?_⟩
        simp [runOp, BaseCrud.delete, BaseCrud.crudDelete, run_async_or_sync,
          hg, Except.map]
    | delete_many uids =>
      rcases hpc : pyListComp (fun uid => st.traced.delete uid) uids (s, t)
        with ⟨pr, pp⟩
      rcases pp with ⟨ps, pt⟩
      have hcm : BaseCrud.delete_many
          (⟨"", st.traced⟩ : BaseCrud M (σ × List (BackendCall M))) uids (s, t) =
          (pr, (ps, pt)) :=
        (crudDeleteMany_eq ⟨"", st.traced⟩ uids (s, t)).trans hpc
      simp only [runOp, hcm] at h
      cases pr with
      | error e => simp [Except.map] at h
      | ok rs0 =>
        simp only [Except.map, Prod.mk.injEq, Except.ok.injEq] at h
        obtain ⟨h1, h2, h3⟩ := h
        subst h1
        subst h2
        subst h3
        obtain ⟨hA, hB⟩ := pyListComp_traced (fun u => st.delete u)
          (fun u => st.traced.delete u) BackendCall.delete
          (fun a s0 t0 => traced_delete st a s0 t0) uids s t rs0 ps pt hpc
        refine ⟨hB, ?_⟩
        have hplain : BaseCrud.delete_many (⟨"", st⟩ : BaseCrud M σ) uids s =
            (.ok rs0, ps) :=
          (crudDeleteMany_eq ⟨"", st⟩ uids s).trans hA
        simp [runOp, hplain, Except.map]

/-- Witness for C8: deleting the batch ["a"] through the instrumented
local backend records exactly one `delete` call and removes the record,
matching the plain run. -/
theorem dispatcher_frame_witness :
    ([BackendCall.delete "a"] : List (BackendCall BaseCrudModel)) =
      [] ++ expectedCalls (DispatchOp.delete_many ["a"]) ∧
    runOp witnessCrud0 (DispatchOp.delete_many ["a"]) [("a", witnessRecord)] =
      (.ok (DispatchRes.unitMany [()]), []) :=
  (dispatcher_frame witnessStorage).2 (DispatchOp.delete_many ["a"])
    [("a", witnessRecord)] [] (DispatchRes.unitMany [()]) []
    [BackendCall.delete "a"] (by rfl)
